import Mathlib

/-!
Verification of the knowledge-base indexing scripts and the PWA icon
generator of this repository, as a shallow embedding in Lean 4.

Filesystem reads are modelled by passing the observed directory contents
explicitly: a `DirEntry` records one entry of the scanned root directory,
with `pngs` holding the names of its `*.png` files in the (arbitrary)
order the filesystem enumerates them, as returned by `Path.glob`.
Since all frames of one video live in the same directory, sorting the
full frame paths (as `sorted(png_files)` does on `Path` objects) orders
them exactly by filename, so frames are modelled by their filenames.
-/

namespace EdcWeb

/-- One entry of a scanned directory: its path, its final name, whether it
is a directory, and the names of its `*.png` files in filesystem
enumeration order (`Path.glob` order, which is not guaranteed sorted). -/
structure DirEntry where
  path : String
  name : String
  isDir : Bool
  pngs : List String
deriving DecidableEq, Inhabited

/-- Lexicographic comparison of character lists by code point, which is
how Python compares strings. -/
def charListLe : List Char → List Char → Bool
  | [], _ => true
  | _ :: _, [] => false
  | a :: as, b :: bs =>
    if a.toNat < b.toNat then true
    else if b.toNat < a.toNat then false
    else charListLe as bs

/-- Python's `<=` on strings: lexicographic by code point. -/
def pyStrLe (a b : String) : Bool := charListLe a.data b.data

/-- Python's `sorted` on the frame paths of one directory: a stable sort
ascending by filename, lexicographically. -/
def sortedStr (l : List String) : List String :=
  List.insertionSort (fun a b => pyStrLe a b = true) l

/-- Two observations of the same directory entry that differ only in the
order the filesystem enumerates its `*.png` files. -/
def EnumPerm (e e' : DirEntry) : Prop :=
  e.path = e'.path ∧ e.name = e'.name ∧ e.isDir = e'.isDir ∧
    List.Perm e.pngs e'.pngs

namespace NCB

/-- A frame-directory record as built by `find_all_frame_directories`
(build_nocodebackend_knowledge.py, lines 44-54): path, name, frame count,
and the sorted list of frame filenames. -/
structure FrameRec where
  path : String
  name : String
  frame_count : Nat
  frames : List String
deriving DecidableEq, Inhabited

/-- The loop body of `find_all_frame_directories` (lines 44-54) for one
entry of the root directory: skip non-directories and directories with no
`*.png` file, otherwise record name, frame count and the sorted list of
frames. -/
def frame_rec_of_entry (item : DirEntry) : Option FrameRec :=
  if item.isDir then
    if item.pngs ≠ [] then
      some { path := item.path
             name := item.name
             frame_count := item.pngs.length
             frames := sortedStr item.pngs }
    else none
  else none

/-- Embedding of `find_all_frame_directories` (lines 36-56): if the root directory does
not exist, return the empty list; otherwise keep each subdirectory that
contains at least one `*.png` file, recording its name, the count of
matching files, and their sorted list. -/
def find_all_frame_directories (rootExists : Bool) (root : List DirEntry) :
    List FrameRec :=
  if rootExists then root.filterMap frame_rec_of_entry else []

/-- One element of the `videos` array of the knowledge index
(lines 69-74). -/
structure VideoInfo where
  name : String
  frame_count : Nat
  directory : String
  frames : List String
deriving DecidableEq, Inhabited

/-- The knowledge index (lines 61-66); `created_at` is the timestamp
string taken at build time. -/
structure IndexData where
  created_at : String
  total_videos : Nat
  total_frames : Nat
  videos : List VideoInfo
deriving DecidableEq, Inhabited

/-- Embedding of `create_knowledge_index` (lines 59-77): aggregate totals plus one
`VideoInfo` per frame-directory record, in order. -/
def create_knowledge_index (now : String) (frame_dirs : List FrameRec) :
    IndexData :=
  { created_at := now
    total_videos := frame_dirs.length
    total_frames := (frame_dirs.map (fun d => d.frame_count)).sum
    videos := frame_dirs.map (fun video_data =>
      { name := video_data.name
        frame_count := video_data.frame_count
        directory := video_data.path
        frames := video_data.frames }) }

/-- The per-video section of the markdown learning guide
(`create_markdown_documentation`, lines 112-126), as the list of lines the
loop body appends for one video. `Path(frame).name` is the frame filename
itself under this embedding. -/
def markdown_video_section (video : VideoInfo) : List String :=
  ["#### " ++ video.name,
   "",
   "- **Frames:** " ++ toString video.frame_count,
   "- **Directory:** `" ++ video.directory ++ "`",
   "",
   "Sample frames:"]
  ++ (video.frames.take 5).map (fun frame => "- `" ++ frame ++ "`")
  ++ (if video.frame_count > 5 then
        ["- ... and " ++ toString (video.frame_count - 5) ++ " more frames"]
      else [])
  ++ [""]

/-- Outcome of one external command run by `subprocess.run`: either it
completed with a return code, or the invocation raised an exception. -/
inductive SubprocResult where
  | ok (returncode : Int)
  | exn (msg : String)
deriving DecidableEq

/-- Embedding of `build_memvid_knowledge_base` (lines 227-278), with the two external
interactions passed in: `probe` is the result of `which memvid` and
`run` the result of `memvid create ...`. Every failure path (probe
exception, nonzero probe status, run exception, nonzero run status)
returns `False`; only a zero run status returns `True`. The embedding is
total: no exception escapes. -/
def build_memvid_knowledge_base (probe run : SubprocResult) : Bool :=
  match probe with
  | .exn _ => false
  | .ok rc =>
    if rc ≠ 0 then false
    else
      match run with
      | .ok 0 => true
      | .ok _ => false
      | .exn _ => false

/-- Observable outcome of `main` (lines 281-338): the exit code when
`sys.exit` is reached (`none` when `main` returns normally), whether the
index JSON and the markdown guide were written, and the
`Memvid KB: ...` value printed in the final summary. -/
structure MainOutcome where
  exitCode : Option Nat
  indexWritten : Bool
  guideWritten : Bool
  memvidSummary : Option String
deriving DecidableEq

/-- Embedding of `main` (lines 281-338): scan, exit 1 on an empty scan, otherwise write
the index JSON, write the learning guide, attempt the memvid build, and
report `Created` / `Not Created` in the summary. -/
def main (rootExists : Bool) (root : List DirEntry)
    (probe run : SubprocResult) : MainOutcome :=
  let frame_dirs := find_all_frame_directories rootExists root
  if frame_dirs = [] then
    { exitCode := some 1
      indexWritten := false
      guideWritten := false
      memvidSummary := none }
  else
    let memvid_success := build_memvid_knowledge_base probe run
    { exitCode := none
      indexWritten := true
      guideWritten := true
      memvidSummary := some (if memvid_success then "Created" else "Not Created") }

end NCB

namespace IKB

/-- Python's `str.title()`: letters starting a run of letters are
uppercased, letters inside a run are lowercased, other characters are
kept. The boolean argument tells whether the previous character was a
letter. -/
def python_title_go : Bool → List Char → List Char
  | _, [] => []
  | prevAlpha, c :: cs =>
    (if c.isAlpha then (if prevAlpha then c.toLower else c.toUpper) else c)
      :: python_title_go c.isAlpha cs

/-- Python's `str.title()` on a string. -/
def python_title (s : String) : String :=
  ⟨python_title_go false s.data⟩

/-- Embedding of `extract_topics_from_frames` (intelligent_kb_builder.py, lines
70-102): the topics dict is initialised with seven fixed labels mapping
to empty lists; the analysis loop over the frame directories samples
frames but its body is `pass`, so the dict is returned unchanged,
whatever the input. -/
def extract_topics_from_frames (frame_directories : List DirEntry) :
    List (String × List String) :=
  let topics : List (String × List String) :=
    [("authentication", []),
     ("database", []),
     ("api-design", []),
     ("frontend", []),
     ("deployment", []),
     ("testing", []),
     ("configuration", [])]
  topics

/-- The per-topic `metadata.json` record (lines 116-121). -/
structure TopicMetadata where
  topic : String
  frame_count : Nat
  last_updated : String
  frames : List String
deriving DecidableEq, Inhabited

/-- The JSON keys of the per-topic metadata record, in the order the dict
literal of lines 116-121 writes them. -/
def topic_metadata_keys : List String :=
  ["topic", "frame_count", "last_updated", "frames"]

/-- The `concepts/overview.md` template (lines 128-149), interpolating
the titlecased topic label, the raw topic label, the knowledge-base
topic, and the number of associated frame paths. -/
def topic_overview (topic_name kb_topic : String) (frame_count : Nat) :
    String :=
  "# " ++ python_title topic_name
    ++ " Concepts\n\n## Overview\n\nThis topic covers "
    ++ topic_name ++ " concepts from the " ++ kb_topic
    ++ " tutorial series.\n\n## Key Concepts\n\n_To be populated with AI-extracted concepts_\n\n## Code Examples\n\nSee the `code-examples/` directory for implementations.\n\n## Related Topics\n\n_To be populated with related topics_\n\n## Frames\n\n"
    ++ toString frame_count ++ " frames reference this topic.\n"

/-- What `build_topic_structure` materialises for one topic: the topic
directory name, its created subdirectories, the metadata record with its
key list, and the overview document. -/
structure TopicOut where
  topic_dir : String
  subdirs : List String
  metadata : TopicMetadata
  metadata_keys : List String
  overview : String
deriving DecidableEq, Inhabited

/-- Embedding of `build_topic_structure` (lines 104-149): for each `(topic_name,
frame_paths)` pair, create the topic directory with its three
subdirectories, write the metadata record, and write the overview
document. `kb_topic` is `self.topic` and `now` the timestamp string. -/
def build_topic_structure (kb_topic now : String)
    (topics : List (String × List String)) : List TopicOut :=
  topics.map (fun p =>
    { topic_dir := p.1
      subdirs := ["concepts", "code-examples", "frames"]
      metadata :=
        { topic := p.1
          frame_count := p.2.length
          last_updated := now
          frames := p.2 }
      metadata_keys := topic_metadata_keys
      overview := topic_overview p.1 kb_topic p.2.length })

/-- One element of the master index `videos` array (lines 165-170). Its
`frames` field is `[str(f) for f in video_dir.glob("*.png")]`: the glob
enumeration order, with no sorting applied. -/
structure VideoInfo where
  directory : String
  name : String
  frame_count : Nat
  frames : List String
deriving DecidableEq, Inhabited

/-- The master index (lines 153-161). The `topics` and `technologies`
fields are written as empty dicts and never filled. -/
structure MasterIndex where
  knowledge_base : String
  created_at : String
  total_videos : Nat
  total_frames : Nat
  topics : List String
  technologies : List String
  videos : List VideoInfo
deriving DecidableEq, Inhabited

/-- Embedding of `create_master_index` (lines 151-179): totals over the glob results
plus one `VideoInfo` per frame directory, in order; the per-video
`frames` list keeps the glob enumeration order. -/
def create_master_index (topic now : String)
    (frame_directories : List DirEntry) : MasterIndex :=
  { knowledge_base := topic
    created_at := now
    total_videos := frame_directories.length
    total_frames := (frame_directories.map (fun d => d.pngs.length)).sum
    topics := []
    technologies := []
    videos := frame_directories.map (fun video_dir =>
      { directory := video_dir.path
        name := video_dir.name
        frame_count := video_dir.pngs.length
        frames := video_dir.pngs }) }

/-- The scan of `KnowledgeBaseBuilder.build` (lines 275-276): the
subdirectories of the source directory containing at least one `*.png`
file. -/
def build_frame_dirs (source : List DirEntry) : List DirEntry :=
  source.filter (fun d => d.isDir && !d.pngs.isEmpty)

/-- Embedding of `KnowledgeBaseBuilder.build` (lines 268-327), projected to its return
value: `False` when the scan finds no frame directories, `True` once the
build completes. -/
def build (source : List DirEntry) : Bool :=
  !(build_frame_dirs source).isEmpty

/-- Embedding of `main` (lines 330-349), projected to the process exit status. `argv`
is `sys.argv` including the program name, so fewer than two positional
arguments means `argv.length < 3`; `sourceExists` is the
`source_dir.exists()` check. -/
def main (argv : List String) (sourceExists : Bool)
    (source : List DirEntry) : Nat :=
  if argv.length < 3 then 1
  else if !sourceExists then 1
  else if build source then 0 else 1

end IKB

namespace PWA

/-- Ceiling division on naturals, `math.ceil (a / b)` for exact rational
`a / b`. -/
def natCeilDiv (a b : Nat) : Nat := (a + b - 1) / b

/-- PIL's `round_aspect(y * aspect, key=lambda n: abs(aspect - n / y))`
inside `Image.thumbnail`, specialised to a square bounding box of side
`L`, for a logo of width `w` and height `h` with `h ≥ w`: pick whichever
of `⌊L*w/h⌋` and `⌈L*w/h⌉` is closer to the exact aspect-scaled width
(the floor on a tie), and at least `1`. The comparison
`|w/h - n/L| ≤ |w/h - m/L|` is taken exactly, as
`|w*L - n*h| ≤ |w*L - m*h|`. -/
def round_aspect_w (w h L : Nat) : Nat :=
  let f := L * w / h
  let c := natCeilDiv (L * w) h
  let keyf := Int.natAbs ((w * L : Int) - f * h)
  let keyc := Int.natAbs ((w * L : Int) - c * h)
  max (if keyf ≤ keyc then f else c) 1

/-- PIL's `round_aspect(x / aspect, key=lambda n: 0 if n == 0 else
abs(aspect - x / n))` inside `Image.thumbnail`, specialised to a square
box of side `L`, for a logo with `w > h`: pick whichever of `⌊L*h/w⌋`
and `⌈L*h/w⌉` has key closer to the aspect (a candidate of `0` has key
`0` and wins), the floor on a tie, then at least `1`. The key comparison
`|w/h - L/n| ≤ |w/h - L/m|` is taken exactly by cross-multiplication. -/
def round_aspect_h (w h L : Nat) : Nat :=
  let f := L * h / w
  let c := natCeilDiv (L * h) w
  let keyfNum := Int.natAbs ((w * f : Int) - L * h)
  let keycNum := Int.natAbs ((w * c : Int) - L * h)
  max (if f = 0 then f else if keyfNum * c ≤ keycNum * f then f else c) 1

/-- PIL's `Image.thumbnail((L, L))` final size for an image of width `w`
and height `h`: a no-op when the image already fits the box, otherwise
the long side becomes `L` and the short side is aspect-rounded. The
branch condition `x / y >= aspect` is `1 ≥ w/h`, i.e. `h ≥ w`. -/
def thumbnail (w h L : Nat) : Nat × Nat :=
  if L ≥ w ∧ L ≥ h then (w, h)
  else if h ≥ w then (round_aspect_w w h L, L)
  else (L, round_aspect_h w h L)

/-- Embedding of `logo_scale = 0.6 if is_maskable else 0.8` (generate_pwa_icons.py,
line 37), as a numerator over 10. -/
def logo_scale_num (is_maskable : Bool) : Nat :=
  if is_maskable then 6 else 8

/-- Embedding of `logo_size = int(size * logo_scale)` (line 38). The script's float
evaluation agrees with this exact `⌊size * scale⌋` at both sizes it is
called with (192 and 512), for both scales. -/
def logo_size (size : Nat) (is_maskable : Bool) : Nat :=
  size * logo_scale_num is_maskable / 10

/-- The observable result of `create_pwa_icon` (lines 19-60): the
dimensions of the resized background, the dimensions of the thumbnailed
logo, the paste offsets, and the output filename. The offsets
`(size - logo.width) // 2` are nonnegative here because the thumbnailed
logo never exceeds its bounding box, which is below `size`, so Python's
floor division coincides with `Nat` division. -/
structure IconResult where
  bg_w : Nat
  bg_h : Nat
  logo_w : Nat
  logo_h : Nat
  logo_x : Nat
  logo_y : Nat
  filename : String
deriving DecidableEq, Inhabited

/-- Embedding of `create_pwa_icon` (lines 19-60) for a logo image of dimensions
`logoW × logoH`: resize the background to `size × size`, thumbnail the
logo into the `logo_size` square, paste at the centering offsets, and
name the output file. -/
def create_pwa_icon (logoW logoH : Nat) (size : Nat)
    (is_maskable : Bool) : IconResult :=
  let box := logo_size size is_maskable
  let dims := thumbnail logoW logoH box
  { bg_w := size
    bg_h := size
    logo_w := dims.1
    logo_h := dims.2
    logo_x := (size - dims.1) / 2
    logo_y := (size - dims.2) / 2
    filename := "Icon" ++ (if is_maskable then "-maskable" else "")
      ++ "-" ++ toString size ++ ".png" }

end PWA

end EdcWeb

open EdcWeb

/-! ## Helper lemmas -/

theorem charListLe_total (a b : List Char) :
    charListLe a b = true ∨ charListLe b a = true := by
  induction a generalizing b with
  | nil => left; rfl
  | cons x xs ih =>
    cases b with
    | nil => right; rfl
    | cons y ys =>
      simp only [charListLe]
      by_cases h1 : x.toNat < y.toNat
      · left; rw [if_pos h1]
      · by_cases h2 : y.toNat < x.toNat
        · right; rw [if_pos h2]
        · rw [if_neg h1, if_neg h2, if_neg h2, if_neg h1]
          exact ih ys

theorem charListLe_trans {a b c : List Char} (hab : charListLe a b = true)
    (hbc : charListLe b c = true) : charListLe a c = true := by
  induction a generalizing b c with
  | nil => rfl
  | cons x xs ih =>
    cases b with
    | nil => simp [charListLe] at hab
    | cons y ys =>
      cases c with
      | nil => simp [charListLe] at hbc
      | cons z zs =>
        simp only [charListLe] at hab hbc ⊢
        by_cases h1 : x.toNat < y.toNat
        · by_cases h2 : y.toNat < z.toNat
          · rw [if_pos (by omega : x.toNat < z.toNat)]
          · by_cases h3 : z.toNat < y.toNat
            · rw [if_neg h2, if_pos h3] at hbc; exact absurd hbc (by simp)
            · rw [if_pos (by omega : x.toNat < z.toNat)]
        · by_cases h4 : y.toNat < x.toNat
          · rw [if_neg h1, if_pos h4] at hab; exact absurd hab (by simp)
          · rw [if_neg h1, if_neg h4] at hab
            by_cases h2 : y.toNat < z.toNat
            · rw [if_pos (by omega : x.toNat < z.toNat)]
            · by_cases h3 : z.toNat < y.toNat
              · rw [if_neg h2, if_pos h3] at hbc; exact absurd hbc (by simp)
              · rw [if_neg h2, if_neg h3] at hbc
                rw [if_neg (by omega : ¬x.toNat < z.toNat),
                  if_neg (by omega : ¬z.toNat < x.toNat)]
                exact ih hab hbc

theorem charListLe_antisymm {a b : List Char} (hab : charListLe a b = true)
    (hba : charListLe b a = true) : a = b := by
  induction a generalizing b with
  | nil =>
    cases b with
    | nil => rfl
    | cons y ys => simp [charListLe] at hba
  | cons x xs ih =>
    cases b with
    | nil => simp [charListLe] at hab
    | cons y ys =>
      simp only [charListLe] at hab hba
      by_cases h1 : x.toNat < y.toNat
      · rw [if_neg (by omega : ¬y.toNat < x.toNat), if_pos h1] at hba
        exact absurd hba (by simp)
      · by_cases h2 : y.toNat < x.toNat
        · rw [if_neg h1, if_pos h2] at hab; exact absurd hab (by simp)
        · rw [if_neg h1, if_neg h2] at hab
          rw [if_neg h2, if_neg h1] at hba
          have hx : x = y :=
            Char.eq_of_val_eq (UInt32.ext (by omega : x.toNat = y.toNat))
          rw [hx, ih hab hba]

instance : IsTotal String (fun a b => pyStrLe a b = true) :=
  ⟨fun a b => charListLe_total a.data b.data⟩

instance : IsTrans String (fun a b => pyStrLe a b = true) :=
  ⟨fun _ _ _ => charListLe_trans⟩

instance : IsAntisymm String (fun a b => pyStrLe a b = true) :=
  ⟨fun a b hab hba => by
    cases a; cases b
    exact congrArg String.mk (charListLe_antisymm hab hba)⟩

theorem sortedStr_sorted (l : List String) :
    List.Sorted (fun a b => pyStrLe a b = true) (sortedStr l) :=
  List.sorted_insertionSort _ l

theorem sortedStr_perm (l : List String) : List.Perm (sortedStr l) l :=
  List.perm_insertionSort _ l

theorem sortedStr_length (l : List String) :
    (sortedStr l).length = l.length :=
  (sortedStr_perm l).length_eq

theorem sortedStr_eq_of_perm {l₁ l₂ : List String} (h : List.Perm l₁ l₂) :
    sortedStr l₁ = sortedStr l₂ :=
  List.eq_of_perm_of_sorted
    (((sortedStr_perm l₁).trans h).trans (sortedStr_perm l₂).symm)
    (sortedStr_sorted l₁) (sortedStr_sorted l₂)

theorem floor_bounds {a b : Nat} (hb : 0 < b) :
    a / b * b ≤ a ∧ a < a / b * b + b := by
  refine ⟨Nat.div_mul_le_self a b, ?_⟩
  have h1 := Nat.div_add_mod a b
  have h2 := Nat.mod_lt a hb
  have h3 : a / b * b = b * (a / b) := Nat.mul_comm _ _
  omega

theorem ceil_bounds {a b : Nat} (hb : 0 < b) :
    a ≤ PWA.natCeilDiv a b * b ∧ PWA.natCeilDiv a b * b ≤ a + b - 1 := by
  unfold PWA.natCeilDiv
  have h1 := Nat.div_add_mod (a + b - 1) b
  have h2 := Nat.mod_lt (a + b - 1) hb
  have h3 : (a + b - 1) / b * b = b * ((a + b - 1) / b) := Nat.mul_comm _ _
  omega

theorem natCeilDiv_le {a b k : Nat} (hb : 0 < b) (h : a ≤ k * b) :
    PWA.natCeilDiv a b ≤ k := by
  unfold PWA.natCeilDiv
  have h2 : a + b - 1 < (k + 1) * b := by
    have h3 : (k + 1) * b = k * b + b := by ring
    omega
  exact Nat.lt_succ_iff.mp ((Nat.div_lt_iff_lt_mul hb).mpr h2)

theorem round_aspect_w_bounds {w h L : Nat} (hw : 1 ≤ w) (hL : 1 ≤ L)
    (hwh : w ≤ h) (hLh : L ≤ h) :
    1 ≤ PWA.round_aspect_w w h L ∧ PWA.round_aspect_w w h L ≤ L
    ∧ PWA.round_aspect_w w h L ≤ w
    ∧ PWA.round_aspect_w w h L * h ≤ L * w + h
    ∧ L * w ≤ PWA.round_aspect_w w h L * h + h := by
  have h0 : 0 < h := Nat.le_trans hw hwh
  obtain ⟨hfl, hfh⟩ := floor_bounds (a := L * w) h0
  obtain ⟨hcl, hch⟩ := ceil_bounds (a := L * w) h0
  have hfL : L * w / h ≤ L := by
    calc L * w / h ≤ L * h / h :=
          Nat.div_le_div_right (Nat.mul_le_mul_left L hwh)
    _ = L := Nat.mul_div_cancel L h0
  have hcL : PWA.natCeilDiv (L * w) h ≤ L :=
    natCeilDiv_le h0 (Nat.mul_le_mul_left L hwh)
  have hfw : L * w / h ≤ w := by
    calc L * w / h ≤ h * w / h :=
          Nat.div_le_div_right (Nat.mul_le_mul_right w hLh)
    _ = w := Nat.mul_div_cancel_left w h0
  have hcw : PWA.natCeilDiv (L * w) h ≤ w := by
    refine natCeilDiv_le h0 ?_
    rw [Nat.mul_comm w h]
    exact Nat.mul_le_mul_right w hLh
  have hlw : 0 < L * w := Nat.mul_pos hL hw
  unfold PWA.round_aspect_w
  dsimp only
  generalize hF : L * w / h = F at hfl hfh hfL hfw ⊢
  generalize hC : PWA.natCeilDiv (L * w) h = C at hcl hch hcL hcw ⊢
  split
  next hkey =>
    clear hkey
    by_cases hf0 : F = 0
    · subst hf0
      have hm : max 0 1 = 1 := rfl
      rw [hm]
      refine ⟨Nat.le_refl 1, hL, hw, by omega, by omega⟩
    · rw [Nat.max_eq_left (by omega)]
      exact ⟨by omega, hfL, hfw, by omega, by omega⟩
  next hkey =>
    clear hkey
    have hc1 : 1 ≤ C := by
      by_contra hcc
      have hc0 : C = 0 := by omega
      subst hc0
      simp at hcl
      omega
    rw [Nat.max_eq_left hc1]
    exact ⟨hc1, hcL, hcw, by omega, by omega⟩

theorem round_aspect_h_bounds {w h L : Nat} (hh : 1 ≤ h) (hL : 1 ≤ L)
    (hhw : h ≤ w) (hLw : L ≤ w) :
    1 ≤ PWA.round_aspect_h w h L ∧ PWA.round_aspect_h w h L ≤ L
    ∧ PWA.round_aspect_h w h L ≤ h
    ∧ PWA.round_aspect_h w h L * w ≤ L * h + w
    ∧ L * h ≤ PWA.round_aspect_h w h L * w + w := by
  have h0 : 0 < w := Nat.le_trans hh hhw
  obtain ⟨hfl, hfh⟩ := floor_bounds (a := L * h) h0
  obtain ⟨hcl, hch⟩ := ceil_bounds (a := L * h) h0
  have hfL : L * h / w ≤ L := by
    calc L * h / w ≤ L * w / w :=
          Nat.div_le_div_right (Nat.mul_le_mul_left L hhw)
    _ = L := Nat.mul_div_cancel L h0
  have hcL : PWA.natCeilDiv (L * h) w ≤ L :=
    natCeilDiv_le h0 (Nat.mul_le_mul_left L hhw)
  have hfh2 : L * h / w ≤ h := by
    calc L * h / w ≤ w * h / w :=
          Nat.div_le_div_right (Nat.mul_le_mul_right h hLw)
    _ = h := Nat.mul_div_cancel_left h h0
  have hch2 : PWA.natCeilDiv (L * h) w ≤ h := by
    refine natCeilDiv_le h0 ?_
    rw [Nat.mul_comm h w]
    exact Nat.mul_le_mul_right h hLw
  unfold PWA.round_aspect_h
  dsimp only
  generalize hF : L * h / w = F at hfl hfh hfL hfh2 ⊢
  generalize hC : PWA.natCeilDiv (L * h) w = C at hcl hch hcL hch2 ⊢
  split
  next hf0 =>
    subst hf0
    have hm : max 0 1 = 1 := rfl
    rw [hm]
    refine ⟨Nat.le_refl 1, hL, hh, by omega, by omega⟩
  next hf0 =>
    split
    next hkey =>
      clear hkey
      rw [Nat.max_eq_left (by omega)]
      exact ⟨by omega, hfL, hfh2, by omega, by omega⟩
    next hkey =>
      clear hkey
      have hc1 : 1 ≤ C := by
        by_contra hcc
        have hc0 : C = 0 := by omega
        subst hc0
        simp at hcl
        have hlh : 0 < L * h := Nat.mul_pos hL hh
        omega
      rw [Nat.max_eq_left hc1]
      exact ⟨hc1, hcL, hch2, by omega, by omega⟩

theorem thumbnail_spec {w h L : Nat} (hw : 1 ≤ w) (hh : 1 ≤ h)
    (hL : 1 ≤ L) :
    (w ≤ L ∧ h ≤ L → PWA.thumbnail w h L = (w, h))
    ∧ 1 ≤ (PWA.thumbnail w h L).1 ∧ 1 ≤ (PWA.thumbnail w h L).2
    ∧ (PWA.thumbnail w h L).1 ≤ L ∧ (PWA.thumbnail w h L).1 ≤ w
    ∧ (PWA.thumbnail w h L).2 ≤ L ∧ (PWA.thumbnail w h L).2 ≤ h
    ∧ (¬(w ≤ L ∧ h ≤ L) →
        max (PWA.thumbnail w h L).1 (PWA.thumbnail w h L).2 = L)
    ∧ (PWA.thumbnail w h L).1 * h
        ≤ (PWA.thumbnail w h L).2 * w + (w + h)
    ∧ (PWA.thumbnail w h L).2 * w
        ≤ (PWA.thumbnail w h L).1 * h + (w + h) := by
  unfold PWA.thumbnail
  split
  next hfit =>
    dsimp only
    obtain ⟨hfw, hfh⟩ := hfit
    have hcomm : w * h = h * w := Nat.mul_comm w h
    refine ⟨fun _ => rfl, hw, hh, hfw, Nat.le_refl w, hfh, Nat.le_refl h,
      fun hn => absurd ⟨hfw, hfh⟩ hn, by omega, by omega⟩
  next hnfit =>
    split
    next hwh =>
      dsimp only
      have hLh : L < h := by
        rcases Nat.lt_or_ge L w with hc | hc
        · omega
        · rcases Nat.lt_or_ge L h with hc2 | hc2
          · exact hc2
          · exact absurd ⟨hc, hc2⟩ hnfit
      obtain ⟨h1, h2, h3, h4, h5⟩ :=
        round_aspect_w_bounds hw hL hwh (Nat.le_of_lt hLh)
      refine ⟨fun hft => absurd hft hnfit, h1, hL, h2, h3,
        Nat.le_refl L, Nat.le_of_lt hLh,
        fun _ => Nat.max_eq_right h2, by omega, by omega⟩
    next hwh =>
      dsimp only
      have hhw : h ≤ w := by omega
      have hLw : L < w := by
        rcases Nat.lt_or_ge L w with hc | hc
        · exact hc
        · rcases Nat.lt_or_ge L h with hc2 | hc2
          · omega
          · exact absurd ⟨hc, hc2⟩ hnfit
      obtain ⟨h1, h2, h3, h4, h5⟩ :=
        round_aspect_h_bounds hh hL hhw (Nat.le_of_lt hLw)
      refine ⟨fun hft => absurd hft hnfit, hL, h1, Nat.le_refl L,
        Nat.le_of_lt hLw, h2, h3,
        fun _ => Nat.max_eq_left h2, by omega, by omega⟩

theorem mem_find_all_frame_directories {rootExists : Bool}
    {root : List DirEntry} {r : NCB.FrameRec}
    (hr : r ∈ NCB.find_all_frame_directories rootExists root) :
    ∃ item ∈ root, item.isDir = true ∧ item.pngs ≠ [] ∧
      r = { path := item.path
            name := item.name
            frame_count := item.pngs.length
            frames := sortedStr item.pngs } := by
  unfold NCB.find_all_frame_directories at hr
  split at hr
  · obtain ⟨item, hitem, heq⟩ := List.mem_filterMap.mp hr
    refine ⟨item, hitem, ?_⟩
    unfold NCB.frame_rec_of_entry at heq
    split at heq
    next hdir =>
      split at heq
      next hpngs => exact ⟨hdir, hpngs, (Option.some.inj heq).symm⟩
      next => simp at heq
    next => simp at heq
  · simp at hr

theorem frame_rec_of_entry_congr {a a' : DirEntry} (h : EnumPerm a a') :
    NCB.frame_rec_of_entry a = NCB.frame_rec_of_entry a' := by
  obtain ⟨hp, hn, hd, hpng⟩ := h
  unfold NCB.frame_rec_of_entry
  rw [hd]
  by_cases hdir : a'.isDir = true
  · rw [if_pos hdir, if_pos hdir]
    by_cases hnil : a.pngs = []
    · have hnil' : a'.pngs = [] := (hnil ▸ hpng).symm.eq_nil
      rw [if_neg (by simp [hnil]), if_neg (by simp [hnil'])]
    · have hnil' : a'.pngs ≠ [] := fun h0 => hnil (h0 ▸ hpng).eq_nil
      rw [if_pos hnil, if_pos hnil']
      simp only [Option.some.injEq, NCB.FrameRec.mk.injEq]
      exact ⟨hp, hn, hpng.length_eq, sortedStr_eq_of_perm hpng⟩
  · rw [if_neg hdir, if_neg hdir]

theorem find_all_frame_directories_enum_invariant (rootExists : Bool)
    {root root' : List DirEntry} (hperm : List.Forall₂ EnumPerm root root') :
    NCB.find_all_frame_directories rootExists root
      = NCB.find_all_frame_directories rootExists root' := by
  unfold NCB.find_all_frame_directories
  cases rootExists with
  | false => rfl
  | true =>
    rw [if_pos rfl, if_pos rfl]
    induction hperm with
    | nil => rfl
    | cons h _ ih =>
      simp only [List.filterMap_cons]
      rw [frame_rec_of_entry_congr h, ih]

theorem topic_overview_decomp (name kb : String) (n : Nat) :
    ∃ a b c, IKB.topic_overview name kb n
      = a ++ name ++ b ++ toString n ++ c := by
  refine ⟨"# " ++ IKB.python_title name
      ++ " Concepts\n\n## Overview\n\nThis topic covers ",
    " concepts from the " ++ kb
      ++ " tutorial series.\n\n## Key Concepts\n\n_To be populated with AI-extracted concepts_\n\n## Code Examples\n\nSee the `code-examples/` directory for implementations.\n\n## Related Topics\n\n_To be populated with related topics_\n\n## Frames\n\n",
    " frames reference this topic.\n", ?_⟩
  unfold IKB.topic_overview
  simp [String.append_assoc]

/-! ## Claims -/

/-- C1: For every scanner output (every list of frame-directory records),
the index built from it satisfies: `total_frames` equals the sum of the
per-video `frame_count` fields and `total_videos` equals the number of
entries in the `videos` array, for both `create_knowledge_index` and
`create_master_index`, for all inputs including the empty list. -/
theorem claim_C1_index_totals (now topic : String)
    (frame_dirs : List NCB.FrameRec) (dirs : List DirEntry) :
    ((NCB.create_knowledge_index now frame_dirs).total_frames
        = ((NCB.create_knowledge_index now frame_dirs).videos.map
            (fun v => v.frame_count)).sum
      ∧ (NCB.create_knowledge_index now frame_dirs).total_videos
        = (NCB.create_knowledge_index now frame_dirs).videos.length)
    ∧ ((IKB.create_master_index topic now dirs).total_frames
        = ((IKB.create_master_index topic now dirs).videos.map
            (fun v => v.frame_count)).sum
      ∧ (IKB.create_master_index topic now dirs).total_videos
        = (IKB.create_master_index topic now dirs).videos.length) := by
  refine ⟨⟨?_, ?_⟩, ?_, ?_⟩ <;>
    simp [NCB.create_knowledge_index, IKB.create_master_index,
      List.map_map, Function.comp_def]

/-- C9: In every per-video record emitted by either index builder, the
`frame_count` field equals the length of that record's `frames` array. -/
theorem claim_C9_frame_count_is_length (rootExists : Bool)
    (root dirs : List DirEntry) (now topic : String) :
    (∀ v ∈ (NCB.create_knowledge_index now
        (NCB.find_all_frame_directories rootExists root)).videos,
      v.frame_count = v.frames.length)
    ∧ (∀ v ∈ (IKB.create_master_index topic now dirs).videos,
      v.frame_count = v.frames.length) := by
  constructor
  · intro v hv
    simp only [NCB.create_knowledge_index, List.mem_map] at hv
    obtain ⟨r, hr, rfl⟩ := hv
    obtain ⟨item, _, _, _, rfl⟩ := mem_find_all_frame_directories hr
    exact (sortedStr_length item.pngs).symm
  · intro v hv
    simp only [IKB.create_master_index, List.mem_map] at hv
    obtain ⟨d, _, rfl⟩ := hv
    rfl

/-- Witness for C9 at a concrete two-frame scan. -/
theorem claim_C9_witness :
    ({ name := "v1", frame_count := 2, directory := "/r/v1",
       frames := ["a.png", "b.png"] } : NCB.VideoInfo).frame_count
      = (["a.png", "b.png"] : List String).length :=
  (claim_C9_frame_count_is_length true
      [{ path := "/r/v1", name := "v1", isDir := true,
         pngs := ["b.png", "a.png"] }] [] "now" "t").1
    _ (by decide)

/-- C2 counterexample: `create_master_index` applies no sorting, so when
the filesystem enumerates `b.png` before `a.png` the emitted frames list
is `["b.png", "a.png"]`, which is not sorted ascending by filename. The
claim that both index builders emit sorted frame lists regardless of
enumeration order is therefore false. -/
theorem claim_C2_counterexample :
    ((IKB.create_master_index "t" "now"
        [{ path := "/r/v1", name := "v1", isDir := true,
           pngs := ["b.png", "a.png"] }]).videos.map (fun v => v.frames))
      = [["b.png", "a.png"]]
    ∧ ¬ List.Sorted (fun a b => pyStrLe a b = true) ["b.png", "a.png"] :=
  ⟨rfl, by decide⟩

/-- C2 (amended): in build_nocodebackend_knowledge.py every video entry's
frames list is sorted ascending by filename and the scan is invariant
under permutation of the filesystem enumeration order of each directory;
in intelligent_kb_builder.py, `create_master_index` emits each frames
list exactly in the filesystem enumeration order, so it is sorted only
when that enumeration is. -/
theorem claim_C2_frame_ordering (rootExists : Bool)
    (root root' dirs : List DirEntry) (now topic : String)
    (hperm : List.Forall₂ EnumPerm root root') :
    (∀ v ∈ (NCB.create_knowledge_index now
        (NCB.find_all_frame_directories rootExists root)).videos,
      List.Sorted (fun a b => pyStrLe a b = true) v.frames)
    ∧ NCB.find_all_frame_directories rootExists root
        = NCB.find_all_frame_directories rootExists root'
    ∧ ((IKB.create_master_index topic now dirs).videos.map (fun v => v.frames))
        = dirs.map (fun d => d.pngs) := by
  refine ⟨?_, find_all_frame_directories_enum_invariant rootExists hperm, ?_⟩
  · intro v hv
    simp only [NCB.create_knowledge_index, List.mem_map] at hv
    obtain ⟨r, hr, rfl⟩ := hv
    obtain ⟨item, _, _, _, rfl⟩ := mem_find_all_frame_directories hr
    exact sortedStr_sorted item.pngs
  · simp [IKB.create_master_index, List.map_map, Function.comp_def]

/-- Witness for C2 at a concrete two-frame directory scanned under two
different enumeration orders. -/
theorem claim_C2_witness :
    NCB.find_all_frame_directories true
        [{ path := "/r/v1", name := "v1", isDir := true,
           pngs := ["b.png", "a.png"] }]
      = NCB.find_all_frame_directories true
        [{ path := "/r/v1", name := "v1", isDir := true,
           pngs := ["a.png", "b.png"] }] :=
  (claim_C2_frame_ordering true
      [{ path := "/r/v1", name := "v1", isDir := true,
         pngs := ["b.png", "a.png"] }]
      [{ path := "/r/v1", name := "v1", isDir := true,
         pngs := ["a.png", "b.png"] }]
      [] "now" "t"
      (List.Forall₂.cons ⟨rfl, rfl, rfl, List.Perm.swap "a.png" "b.png" []⟩
        List.Forall₂.nil)).2.1

/-- C3: in the markdown learning guide, a video entry with more than 5
frames lists exactly the first 5 frame filenames followed by one line
stating the remaining count (`frame_count - 5`); a video with at most 5
frames lists all of them and no "more" line is emitted. The `frame_count`
field of every entry the pipeline feeds to the guide equals the length of
its frames list (claim C9), which is the hypothesis `hv`. -/
theorem claim_C3_markdown_truncation (video : NCB.VideoInfo)
    (hv : video.frame_count = video.frames.length) :
    (5 < video.frame_count →
      (video.frames.take 5).length = 5
      ∧ NCB.markdown_video_section video
        = ["#### " ++ video.name,
           "",
           "- **Frames:** " ++ toString video.frame_count,
           "- **Directory:** `" ++ video.directory ++ "`",
           "",
           "Sample frames:"]
          ++ (video.frames.take 5).map (fun frame => "- `" ++ frame ++ "`")
          ++ ["- ... and " ++ toString (video.frame_count - 5) ++ " more frames",
              ""])
    ∧ (video.frame_count ≤ 5 →
      NCB.markdown_video_section video
        = ["#### " ++ video.name,
           "",
           "- **Frames:** " ++ toString video.frame_count,
           "- **Directory:** `" ++ video.directory ++ "`",
           "",
           "Sample frames:"]
          ++ video.frames.map (fun frame => "- `" ++ frame ++ "`")
          ++ [""]) := by
  constructor
  · intro h5
    refine ⟨?_, ?_⟩
    · rw [List.length_take]; omega
    · unfold NCB.markdown_video_section
      rw [if_pos h5]
      simp [List.append_assoc]
  · intro h5
    unfold NCB.markdown_video_section
    rw [if_neg (by omega), List.take_of_length_le (by omega)]
    simp

/-- Witness for C3 at a concrete seven-frame video entry. -/
theorem claim_C3_witness :
    ((["f1.png", "f2.png", "f3.png", "f4.png", "f5.png", "f6.png",
       "f7.png"] : List String).take 5).length = 5 :=
  ((claim_C3_markdown_truncation
      { name := "v", frame_count := 7, directory := "/d",
        frames := ["f1.png", "f2.png", "f3.png", "f4.png", "f5.png",
                   "f6.png", "f7.png"] }
      rfl).1 (by decide)).1

/-- C4: when the memvid probe fails (non-zero status of `which memvid` or
an exception), or the memvid invocation fails (non-zero exit status or an
exception), `build_memvid_knowledge_base` returns `False` without raising
(the embedding is total), and a `main` run whose scan found frame
directories still completes normally (`exitCode = none`), writes the
index JSON and the markdown guide, and reports the knowledge-base step as
`Not Created` in the final summary. -/
theorem claim_C4_memvid_soft_fail (rootExists : Bool)
    (root : List DirEntry) (probe run : NCB.SubprocResult)
    (hfail : (∃ m, probe = .exn m) ∨ (∃ rc, probe = .ok rc ∧ rc ≠ 0)
           ∨ (∃ m, run = .exn m) ∨ (∃ rc, run = .ok rc ∧ rc ≠ 0))
    (hdirs : NCB.find_all_frame_directories rootExists root ≠ []) :
    NCB.build_memvid_knowledge_base probe run = false
    ∧ (NCB.main rootExists root probe run).exitCode = none
    ∧ (NCB.main rootExists root probe run).indexWritten = true
    ∧ (NCB.main rootExists root probe run).guideWritten = true
    ∧ (NCB.main rootExists root probe run).memvidSummary
        = some "Not Created" := by
  have hb : NCB.build_memvid_knowledge_base probe run = false := by
    unfold NCB.build_memvid_knowledge_base
    rcases hfail with ⟨m, rfl⟩ | ⟨rc, rfl, hrc⟩ | ⟨m, hrun⟩ | ⟨rc, hrun, hrc⟩
    · rfl
    · simp [hrc]
    · cases probe with
      | exn _ => rfl
      | ok prc =>
        by_cases hprc : prc = 0
        · subst hprc; subst hrun; simp
        · simp [hprc]
    · cases probe with
      | exn _ => rfl
      | ok prc =>
        by_cases hprc : prc = 0
        · subst hprc; subst hrun; simp [hrc]
        · simp [hprc]
  refine ⟨hb, ?_⟩
  unfold NCB.main
  rw [if_neg hdirs, hb]
  exact ⟨rfl, rfl, rfl, rfl⟩

/-- Witness for C4: memvid probe reports status 1 on a one-video scan. -/
theorem claim_C4_witness :
    (NCB.main true
        [{ path := "/r/v1", name := "v1", isDir := true,
           pngs := ["a.png"] }]
        (NCB.SubprocResult.ok 1) (NCB.SubprocResult.ok 0)).memvidSummary
      = some "Not Created" :=
  (claim_C4_memvid_soft_fail true
      [{ path := "/r/v1", name := "v1", isDir := true, pngs := ["a.png"] }]
      (NCB.SubprocResult.ok 1) (NCB.SubprocResult.ok 0)
      (Or.inr (Or.inl ⟨1, rfl, by decide⟩)) (by decide)).2.2.2.2

/-- C5: the intelligent_kb_builder CLI exits with status 1 when fewer
than two positional arguments are given (`len(sys.argv) < 3`), with
status 1 when the source directory does not exist, with status 1 when the
source directory has no subdirectory containing a `*.png` file, and with
status 0 when the build completes. -/
theorem claim_C5_cli_exit_codes (argv : List String) (sourceExists : Bool)
    (source : List DirEntry) :
    (argv.length < 3 → IKB.main argv sourceExists source = 1)
    ∧ (3 ≤ argv.length → sourceExists = false →
        IKB.main argv sourceExists source = 1)
    ∧ (3 ≤ argv.length → sourceExists = true →
        IKB.build_frame_dirs source = [] →
        IKB.main argv sourceExists source = 1)
    ∧ (3 ≤ argv.length → sourceExists = true →
        IKB.build_frame_dirs source ≠ [] →
        IKB.main argv sourceExists source = 0) := by
  refine ⟨?_, ?_, ?_, ?_⟩
  · intro h
    unfold IKB.main
    rw [if_pos h]
  · intro h hsrc
    unfold IKB.main
    rw [if_neg (by omega), hsrc]
    rfl
  · intro h hsrc hempty
    unfold IKB.main
    rw [if_neg (by omega), hsrc]
    simp [IKB.build, hempty]
  · intro h hsrc hne
    unfold IKB.main
    rw [if_neg (by omega), hsrc]
    simp [IKB.build, List.isEmpty_iff, hne]

/-- Witness for C5: a complete build over one qualifying subdirectory
exits with status 0. -/
theorem claim_C5_witness :
    IKB.main ["intelligent_kb_builder.py", "NoCodeBackend", "/src"] true
        [{ path := "/src/v1", name := "v1", isDir := true,
           pngs := ["a.png"] }]
      = 0 :=
  (claim_C5_cli_exit_codes
      ["intelligent_kb_builder.py", "NoCodeBackend", "/src"] true
      [{ path := "/src/v1", name := "v1", isDir := true,
         pngs := ["a.png"] }]).2.2.2 (by decide) rfl (by decide)

/-- C6: for the four icon configurations (size 192 or 512, maskable or
not), `create_pwa_icon` resizes the background to an exact size×size
square, aspect-fits the logo into the 60% (maskable) or 80% (regular)
box — both logo dimensions stay within the box, the longer one reaching
it exactly whenever the logo does not already fit, and the aspect ratio
is preserved up to the one-pixel rounding of the short side — and pastes
it at the integer offsets `((size - logo_w) / 2, (size - logo_h) / 2)`,
which centre the logo within ±1 pixel. -/
theorem claim_C6_icon_geometry (logoW logoH size : Nat)
    (is_maskable : Bool) (hw : 1 ≤ logoW) (hh : 1 ≤ logoH)
    (hsize : size = 192 ∨ size = 512) :
    (PWA.create_pwa_icon logoW logoH size is_maskable).bg_w = size
    ∧ (PWA.create_pwa_icon logoW logoH size is_maskable).bg_h = size
    ∧ (PWA.create_pwa_icon logoW logoH size is_maskable).logo_w
        ≤ PWA.logo_size size is_maskable
    ∧ (PWA.create_pwa_icon logoW logoH size is_maskable).logo_h
        ≤ PWA.logo_size size is_maskable
    ∧ (¬(logoW ≤ PWA.logo_size size is_maskable
          ∧ logoH ≤ PWA.logo_size size is_maskable) →
        max (PWA.create_pwa_icon logoW logoH size is_maskable).logo_w
            (PWA.create_pwa_icon logoW logoH size is_maskable).logo_h
          = PWA.logo_size size is_maskable)
    ∧ (PWA.create_pwa_icon logoW logoH size is_maskable).logo_w * logoH
        ≤ (PWA.create_pwa_icon logoW logoH size is_maskable).logo_h * logoW
          + (logoW + logoH)
    ∧ (PWA.create_pwa_icon logoW logoH size is_maskable).logo_h * logoW
        ≤ (PWA.create_pwa_icon logoW logoH size is_maskable).logo_w * logoH
          + (logoW + logoH)
    ∧ (PWA.create_pwa_icon logoW logoH size is_maskable).logo_x
        = (size - (PWA.create_pwa_icon logoW logoH size is_maskable).logo_w) / 2
    ∧ (PWA.create_pwa_icon logoW logoH size is_maskable).logo_y
        = (size - (PWA.create_pwa_icon logoW logoH size is_maskable).logo_h) / 2
    ∧ 2 * (PWA.create_pwa_icon logoW logoH size is_maskable).logo_x
        ≤ size - (PWA.create_pwa_icon logoW logoH size is_maskable).logo_w
    ∧ size - (PWA.create_pwa_icon logoW logoH size is_maskable).logo_w
        ≤ 2 * (PWA.create_pwa_icon logoW logoH size is_maskable).logo_x + 1
    ∧ 2 * (PWA.create_pwa_icon logoW logoH size is_maskable).logo_y
        ≤ size - (PWA.create_pwa_icon logoW logoH size is_maskable).logo_h
    ∧ size - (PWA.create_pwa_icon logoW logoH size is_maskable).logo_h
        ≤ 2 * (PWA.create_pwa_icon logoW logoH size is_maskable).logo_y + 1 := by
  have hbox : 1 ≤ PWA.logo_size size is_maskable := by
    rcases hsize with rfl | rfl <;> cases is_maskable <;> decide
  obtain ⟨hfit, h1, h2, hL1, hw1, hL2, hh2, hmax, ha1, ha2⟩ :=
    thumbnail_spec (L := PWA.logo_size size is_maskable) hw hh hbox
  unfold PWA.create_pwa_icon
  dsimp only
  exact ⟨rfl, rfl, hL1, hL2, hmax, ha1, ha2, rfl, rfl,
    by omega, by omega, by omega, by omega⟩

/-- Witness for C6: a 1024×768 logo on the 512 maskable icon is scaled so
that its longer dimension is exactly the 60% box of 307 pixels. -/
theorem claim_C6_witness :
    max (PWA.create_pwa_icon 1024 768 512 true).logo_w
        (PWA.create_pwa_icon 1024 768 512 true).logo_h
      = PWA.logo_size 512 true :=
  (claim_C6_icon_geometry 1024 768 512 true (by decide) (by decide)
      (Or.inr rfl)).2.2.2.2.1 (by decide)

/-- C10: the logo is never upscaled — `Image.thumbnail` only shrinks, so
a logo already within the target box (60% of the canvas when maskable,
80% otherwise) keeps its original dimensions, and in all cases each
output logo dimension is at most the minimum of the box side and the
original dimension. -/
theorem claim_C10_logo_never_upscaled (logoW logoH size : Nat)
    (is_maskable : Bool) (hw : 1 ≤ logoW) (hh : 1 ≤ logoH)
    (hbox : 1 ≤ PWA.logo_size size is_maskable) :
    ((logoW ≤ PWA.logo_size size is_maskable
        ∧ logoH ≤ PWA.logo_size size is_maskable) →
      (PWA.create_pwa_icon logoW logoH size is_maskable).logo_w = logoW
      ∧ (PWA.create_pwa_icon logoW logoH size is_maskable).logo_h = logoH)
    ∧ (PWA.create_pwa_icon logoW logoH size is_maskable).logo_w
        ≤ min (PWA.logo_size size is_maskable) logoW
    ∧ (PWA.create_pwa_icon logoW logoH size is_maskable).logo_h
        ≤ min (PWA.logo_size size is_maskable) logoH := by
  obtain ⟨hfit, h1, h2, hL1, hw1, hL2, hh2, hmax, ha1, ha2⟩ :=
    thumbnail_spec (L := PWA.logo_size size is_maskable) hw hh hbox
  unfold PWA.create_pwa_icon
  dsimp only
  refine ⟨fun hf => ?_, le_min hL1 hw1, le_min hL2 hh2⟩
  rw [hfit hf]
  exact ⟨rfl, rfl⟩

/-- Witness for C10: a 50×30 logo already fits the 80% box of the
regular 512 icon (409 pixels) and keeps its width of 50. -/
theorem claim_C10_witness :
    (PWA.create_pwa_icon 50 30 512 false).logo_w = 50 :=
  ((claim_C10_logo_never_upscaled 50 30 512 false (by decide) (by decide)
      (by decide)).1 (by decide)).1

/-- C7: for every topic of the fixed enumerated set,
`build_topic_structure` materialises one directory per topic with the
three subdirectories `concepts`, `code-examples` and `frames`, a JSON
metadata record with exactly the fields `topic`, `frame_count`,
`last_updated` and `frames` whose `frame_count` equals the length of the
associated frame-path list, and a markdown overview interpolating the
topic name and that frame count. -/
theorem claim_C7_topic_structure (kb_topic now : String)
    (dirs : List DirEntry) :
    ((IKB.build_topic_structure kb_topic now
        (IKB.extract_topics_from_frames dirs)).map (fun t => t.topic_dir))
      = ["authentication", "database", "api-design", "frontend",
         "deployment", "testing", "configuration"]
    ∧ ∀ t ∈ IKB.build_topic_structure kb_topic now
          (IKB.extract_topics_from_frames dirs),
        t.subdirs = ["concepts", "code-examples", "frames"]
        ∧ t.metadata_keys = ["topic", "frame_count", "last_updated", "frames"]
        ∧ t.metadata.topic = t.topic_dir
        ∧ t.metadata.last_updated = now
        ∧ (∃ paths, (t.topic_dir, paths) ∈ IKB.extract_topics_from_frames dirs
            ∧ t.metadata.frame_count = paths.length
            ∧ t.metadata.frames = paths)
        ∧ (∃ a b c, t.overview
            = a ++ t.topic_dir ++ b ++ toString t.metadata.frame_count ++ c) := by
  refine ⟨rfl, ?_⟩
  intro t ht
  simp only [IKB.build_topic_structure, IKB.extract_topics_from_frames,
    List.map_cons, List.map_nil, List.mem_cons, List.not_mem_nil,
    or_false] at ht
  rcases ht with rfl | rfl | rfl | rfl | rfl | rfl | rfl <;>
    exact ⟨rfl, rfl, rfl, rfl,
      ⟨[], by simp [IKB.extract_topics_from_frames], rfl, rfl⟩,
      topic_overview_decomp _ _ _⟩

/-- Witness for C7 at the first topic of a build over an empty scan. -/
theorem claim_C7_witness :
    ({ topic_dir := "authentication",
       subdirs := ["concepts", "code-examples", "frames"],
       metadata := { topic := "authentication", frame_count := 0,
                     last_updated := "now", frames := [] },
       metadata_keys := ["topic", "frame_count", "last_updated", "frames"],
       overview := IKB.topic_overview "authentication" "KB" 0 }
      : IKB.TopicOut).subdirs = ["concepts", "code-examples", "frames"] :=
  ((claim_C7_topic_structure "KB" "now" []).2 _
    (by simp [IKB.build_topic_structure, IKB.extract_topics_from_frames,
      IKB.topic_metadata_keys])).1

/-- C8: `extract_topics_from_frames` returns, for every input, exactly
the seven fixed topic labels each mapped to an empty frame-path list, so
every per-topic metadata record written by the build has `frame_count`
0 and an empty `frames` array. -/
theorem claim_C8_placeholder_topics (dirs : List DirEntry)
    (kb_topic now : String) :
    (IKB.extract_topics_from_frames dirs).map Prod.fst
      = ["authentication", "database", "api-design", "frontend",
         "deployment", "testing", "configuration"]
    ∧ (∀ p ∈ IKB.extract_topics_from_frames dirs, p.2 = ([] : List String))
    ∧ (∀ t ∈ IKB.build_topic_structure kb_topic now
          (IKB.extract_topics_from_frames dirs),
        t.metadata.frame_count = 0
        ∧ t.metadata.frames = ([] : List String)) := by
  refine ⟨rfl, ?_, ?_⟩
  · intro p hp
    simp only [IKB.extract_topics_from_frames, List.mem_cons,
      List.not_mem_nil, or_false] at hp
    rcases hp with rfl | rfl | rfl | rfl | rfl | rfl | rfl <;> rfl
  · intro t ht
    simp only [IKB.build_topic_structure, IKB.extract_topics_from_frames,
      List.map_cons, List.map_nil, List.mem_cons, List.not_mem_nil,
      or_false] at ht
    rcases ht with rfl | rfl | rfl | rfl | rfl | rfl | rfl <;>
      exact ⟨rfl, rfl⟩

/-- Witness for C8 at the first topic pair. -/
theorem claim_C8_witness :
    (("authentication", ([] : List String)) : String × List String).2
      = [] :=
  (claim_C8_placeholder_topics [] "KB" "now").2.1 _ (by decide)
